import Mathlib

/-!
Verification of the client-side aggregation/statistics and export logic of the
AI-risk report web application, against its natural-language specification.

The embedding covers the two record variants found in the source:
the legacy local-storage records (camelCase fields, read by `Dashboard.tsx`
and `ReportsSection.tsx`) and the hosted-store rows (snake_case columns of
the `risk_assessments` table, read by the enhanced dashboard/reports views).

Modelling conventions:
- JavaScript objects used as count maps (`reduce` into `acc[k] = (acc[k]||0)+1`
  followed by `Object.entries`) are modelled as association lists in key
  insertion order, which is first-encounter order for the label keys used here.
- `Array.prototype.sort` with comparator `(b - a)` is required stable by the
  language standard; it is modelled by a stable insertion sort.
- Timestamps are modelled by their epoch-millisecond value as an `Int`
  (a `Date` value and its parsed/serialised forms are identified with that
  instant); the wall-clock reading at call time is an explicit parameter.
- Text payloads are modelled as `List Char`.
-/

/-- Legacy local-storage risk-assessment record, as read from the
`riskAssessments` key by `Dashboard.tsx` / `ReportsSection.tsx`.
Modelled from the spec: the form writing this variant is not in the sources;
fields are those the legacy views read (`timestamp`, `aiTool`, `riskType`,
`severity`, `description`), per the spec's RiskAssessment data model. -/
structure Assessment where
  timestamp : String
  aiTool : String
  riskType : String
  severity : String
  description : String
deriving DecidableEq, Repr

/-- Hosted-store row of the `risk_assessments` table, in the column order of
the migration (`id, ai_tool, risk_type, severity, description, email,
report_requested, created_at, updated_at`); `created_at`/`updated_at` are
modelled as epoch milliseconds. -/
structure AssessmentRow where
  id : String
  ai_tool : String
  risk_type : String
  severity : String
  description : String
  email : String
  report_requested : Bool
  created_at : Int
  updated_at : Int
deriving DecidableEq, Repr

/-- Row of the `mitigation_strategies` table (column order of the migration). -/
structure MitigationStrategy where
  id : String
  risk_type : String
  severity : String
  strategy_title : String
  strategy_description : String
  implementation_difficulty : String
  effectiveness_score : Nat
  created_at : Int
deriving DecidableEq, Repr

/-- Row of the `risk_factors` table (column order of the migration). -/
structure RiskFactor where
  id : String
  risk_type : String
  factor_name : String
  impact_level : String
  frequency_percentage : ℚ
  description : String
  created_at : Int
deriving DecidableEq, Repr

/-- One step of the JS counting reduce `acc[k] = (acc[k] || 0) + 1` on a map
modelled as an association list in key insertion order: an existing key is
bumped in place, a new key is appended at the end. -/
def bump (k : String) : List (String × Nat) → List (String × Nat)
  | [] => [(k, 1)]
  | (k', n) :: rest => if k' = k then (k', n + 1) :: rest else (k', n) :: bump k rest

/-- The counting `reduce` pattern shared by `severityData`/`toolData`/
`riskTypeData` in `Dashboard.tsx` and the severity/tool/risk counts in
`getInsights`: fold the records, bumping the bucket of `key r`. The result
lists buckets in first-encounter order of their keys. -/
def countBy (key : α → String) (l : List α) : List (String × Nat) :=
  l.foldl (fun acc r => bump (key r) acc) []

/-- Reading a count map: `m[k] || 0`. -/
def lookupCount (k : String) : List (String × Nat) → Nat
  | [] => 0
  | (k', n) :: rest => if k' = k then n else lookupCount k rest

/-- Sum of all bucket counts (`sum(countBySeverity.values())`). -/
def sumCounts (m : List (String × Nat)) : Nat := (m.map (fun e => e.2)).sum

/-- Keys of a count map, in order (`Object.keys`). -/
def keysOf (m : List (String × Nat)) : List String := m.map (fun e => e.1)

/-- `severityData` of `Dashboard.tsx` (also `severityCount` in `getInsights`). -/
def severityData (l : List Assessment) : List (String × Nat) :=
  countBy (fun a => a.severity) l

/-- `toolData` of `Dashboard.tsx`. -/
def toolData (l : List Assessment) : List (String × Nat) :=
  countBy (fun a => a.aiTool) l

/-- `riskTypeData` of `Dashboard.tsx`. -/
def riskTypeData (l : List Assessment) : List (String × Nat) :=
  countBy (fun a => a.riskType) l

/-- Insertion step of the stable descending sort: the new entry is placed
after every entry with a strictly larger count and before the rest, which is
exactly the placement a stable sort with comparator `(b - a)` gives. -/
def insertDesc (x : String × Nat) : List (String × Nat) → List (String × Nat)
  | [] => [x]
  | y :: ys => if x.2 < y.2 then y :: insertDesc x ys else x :: y :: ys

/-- Stable sort by descending count, modelling
`.sort(([,a],[,b]) => (b as number) - (a as number))` (stable per ES2019). -/
def sortDesc : List (String × Nat) → List (String × Nat)
  | [] => []
  | x :: xs => insertDesc x (sortDesc xs)

/-- Chart-label truncation `key.length > n ? key.substring(0, n) + '...' : key`. -/
def truncateName (n : Nat) (k : String) : String :=
  if n < k.length then (k.take n).push '.' |>.push '.' |>.push '.' else k

/-- `toolChartData` of `Dashboard.tsx`: entries sorted by descending count,
first 8 kept, names truncated at 15 characters. -/
def toolChartData (l : List Assessment) : List (String × Nat) :=
  ((sortDesc (toolData l)).take 8).map (fun e => (truncateName 15 e.1, e.2))

/-- First occurrences of a list of keys, in order: the key order that the JS
object accumulates during the counting reduce. -/
def firstOccurrences (ks : List String) : List String :=
  ks.foldl (fun acc k => if k ∈ acc then acc else acc ++ [k]) []

/-- Milliseconds in the 7-day window (`oneWeekAgo.setDate(getDate() - 7)`;
the calendar subtraction is modelled as a fixed 7 times 24 h of milliseconds). -/
def msPerWeek : Int := 7 * 24 * 60 * 60 * 1000

/-- `weeklySubmissions` of the hosted-store dashboard
(`fetchAssessments` in the enhanced Dashboard):
`data.filter(item => new Date(item.created_at) > oneWeekAgo)`.
Note the strict `>` and the absence of any upper bound. -/
def weeklySubmissions (now : Int) (l : List AssessmentRow) : List AssessmentRow :=
  l.filter (fun item => now - msPerWeek < item.created_at)

/-- `stats.thisWeek`: length of `weeklySubmissions`. -/
def weeklyCount (now : Int) (l : List AssessmentRow) : Nat :=
  (weeklySubmissions now l).length

/-- The weekly count as the SPEC words it, for comparison with the code:
"count of records whose createdAt falls within the trailing 7-day window
ending at evaluation time (inclusive lower bound, exclusive future)". -/
def weeklyCountSpec (now : Int) (l : List AssessmentRow) : Nat :=
  (l.filter (fun item =>
    now - msPerWeek ≤ item.created_at ∧ item.created_at ≤ now)).length

/-- Result record of `getInsights` in `ReportsSection.tsx`.
`criticalPercentage` is kept as the exact rational the arithmetic produces
(the source formats it with `.toFixed(1)` for display). -/
structure Insights where
  totalReports : Nat
  criticalPercentage : ℚ
  mostReportedTool : String
  mostCommonRisk : String
  avgReportsPerDay : ℚ
deriving DecidableEq, Repr

/-- Head entry key of a sorted count list, `'N/A'` when there is none
(`topTool ? topTool[0] : 'N/A'`). -/
def headKey : List (String × Nat) → String
  | [] => "N/A"
  | e :: _ => e.1

/-- `getInsights` of `ReportsSection.tsx`: `null` (here `none`) when there are
no assessments, otherwise the insight record; `criticalPercentage` is
`(severityCount['Critical'] || 0) / assessments.length * 100`. -/
def getInsights (l : List Assessment) : Option Insights :=
  if l.length = 0 then none
  else some ⟨l.length,
    (lookupCount "Critical" (severityData l) : ℚ) / (l.length : ℚ) * 100,
    headKey (sortDesc (toolData l)),
    headKey (sortDesc (riskTypeData l)),
    (l.length : ℚ) / 30⟩

/-- Form state of `RiskAssessmentForm`. -/
structure FormData where
  aiTool : String
  riskType : String
  severity : String
  description : String
  email : String
  reportRequested : Bool
deriving DecidableEq, Repr

/-- Row sent to the store by `handleSubmit`'s insert call. -/
structure InsertRow where
  ai_tool : String
  risk_type : String
  severity : String
  description : String
  email : String
  report_requested : Bool
deriving DecidableEq, Repr

/-- Disabled condition of the submit button:
`!formData.aiTool || !formData.riskType || !formData.severity || isSubmitting`
(an empty string is falsy). -/
def submitDisabled (f : FormData) (isSubmitting : Bool) : Bool :=
  f.aiTool == "" || f.riskType == "" || f.severity == "" || isSubmitting

/-- Store insert performed by `handleSubmit` (field mapping of the
`.insert([...])` call). -/
def handleSubmitRow (f : FormData) : InsertRow :=
  ⟨f.aiTool, f.riskType, f.severity, f.description, f.email, f.reportRequested⟩

/-- A submission attempt through the form UI: the browser only delivers the
submit event when the button is enabled, so a disabled state yields no store
call (`none`); otherwise `handleSubmit` runs and inserts the row. -/
def attemptSubmit (f : FormData) (isSubmitting : Bool) : Option InsertRow :=
  if submitDisabled f isSubmitting then none else some (handleSubmitRow f)

/-- Characters of a string literal. -/
def lit (s : String) : List Char := s.data

/-- A JSON string literal for a field value. The external `JSON.stringify`
escapes special characters; this model writes the value verbatim, and the
round-trip theorem therefore restricts field values to plain characters
(no quote, no backslash, no control characters), on which the two agree. -/
def jstr (s : String) : List Char := '"' :: s.data ++ ['"']

/-- Join character chunks with a separator (`Array.prototype.join`). -/
def intercalateChars (sep : List Char) : List (List Char) → List Char
  | [] => []
  | [x] => x
  | x :: xs => x ++ sep ++ intercalateChars sep xs

/-- One legacy record as `JSON.stringify(assessments, null, 2)` lays it out
inside the top-level array (object at indent 2, fields at indent 4). -/
def serializeAssessment (r : Assessment) : List Char :=
  lit "\x7b\n    \"timestamp\": " ++ jstr r.timestamp ++
  lit ",\n    \"aiTool\": " ++ jstr r.aiTool ++
  lit ",\n    \"riskType\": " ++ jstr r.riskType ++
  lit ",\n    \"severity\": " ++ jstr r.severity ++
  lit ",\n    \"description\": " ++ jstr r.description ++
  lit "\n  \x7d"

/-- `JSON.stringify(assessments, null, 2)`: the pretty-printed top-level
array of legacy records (the JSON branch of `exportData` in
`ReportsSection.tsx`). -/
def serializeAssessments (l : List Assessment) : List Char :=
  if l.isEmpty then lit "[]"
  else lit "[\n  " ++
    intercalateChars (lit ",\n  ") (l.map serializeAssessment) ++ lit "\n]"

/-- One line of the legacy CSV export:
`${a.timestamp},${a.aiTool},${a.riskType},${a.severity}`. -/
def csvLineSimple (a : Assessment) : List Char :=
  a.timestamp.data ++ lit "," ++ a.aiTool.data ++ lit "," ++
  a.riskType.data ++ lit "," ++ a.severity.data

/-- `dataStr` of `exportData` in `ReportsSection.tsx`. -/
def dataStrSimple (l : List Assessment) (format : String) : List Char :=
  if format = "json" then serializeAssessments l
  else intercalateChars (lit "\n") (l.map csvLineSimple)

/-- Outcome of an export action. `noData` is the destructive "No Data"
notification with an early return; `file` means the download link was
created and clicked (payload, filename, MIME type) and the success
notification shown. -/
inductive ExportOutcome where
  | noData : ExportOutcome
  | file (payload : List Char) (filename : String) (mime : String) : ExportOutcome
deriving DecidableEq, Repr

/-- Blob MIME selection shared by both exporters:
`format === 'json' ? 'application/json' : 'text/csv'`. -/
def mimeOf (format : String) : String :=
  if format = "json" then "application/json" else "text/csv"

/-- `exportData` of `ReportsSection.tsx` (legacy exporter): empty dataset is
reported as "No Data"; otherwise the payload is downloaded as
`ai-risk-assessments.<format>`. -/
def exportDataSimple (assessments : List Assessment) (format : String) : ExportOutcome :=
  if assessments.length = 0 then .noData
  else .file (dataStrSimple assessments format)
    ("ai-risk-assessments." ++ format) (mimeOf format)

/-- Decimal characters of a natural number. -/
def natChars (n : Nat) : List Char := (toString n).data

/-- Decimal characters of an integer. -/
def intChars (i : Int) : List Char := (toString i).data

/-- JSON boolean characters. -/
def boolChars (b : Bool) : List Char := if b then lit "true" else lit "false"

/-- Rendering of a rational number in the serialized summaries. The source
computes these as JS floating-point numbers and lets `JSON.stringify` format
them; the model keeps the exact rational and renders integers exactly. No
theorem inspects these bytes. -/
def ratChars (x : ℚ) : List Char :=
  if x.den = 1 then intChars x.num
  else intChars x.num ++ lit "/" ++ natChars x.den

/-- One hosted-store row as it appears inside the enhanced JSON export
(object at indent 4, fields at indent 6); `created_at`/`updated_at` render
as the model's epoch-millisecond integers. -/
def serializeRow (r : AssessmentRow) : List Char :=
  lit "\x7b\n      \"id\": " ++ jstr r.id ++
  lit ",\n      \"ai_tool\": " ++ jstr r.ai_tool ++
  lit ",\n      \"risk_type\": " ++ jstr r.risk_type ++
  lit ",\n      \"severity\": " ++ jstr r.severity ++
  lit ",\n      \"description\": " ++ jstr r.description ++
  lit ",\n      \"email\": " ++ jstr r.email ++
  lit ",\n      \"report_requested\": " ++ boolChars r.report_requested ++
  lit ",\n      \"created_at\": " ++ intChars r.created_at ++
  lit ",\n      \"updated_at\": " ++ intChars r.updated_at ++
  lit "\n    \x7d"

/-- The `risk_assessments` array value inside the enhanced JSON export. -/
def serializeRows (l : List AssessmentRow) : List Char :=
  if l.isEmpty then lit "[]"
  else lit "[\n    " ++
    intercalateChars (lit ",\n    ") (l.map serializeRow) ++ lit "\n  ]"

/-- The `risk_assessments` + `metadata` block of the enhanced export object
(dataType `all` or `assessments`); `export_date` embeds `nowIso`, the
`new Date().toISOString()` reading taken during the call. -/
def assessmentsSectionChars (nowIso : List Char) (assessments : List AssessmentRow) : List Char :=
  lit "  \"risk_assessments\": " ++ serializeRows assessments ++
  lit ",\n  \"metadata\": \x7b\n    \"exported_by\": \"AI Risk Assessment Dashboard\",\n    \"export_date\": \"" ++
  nowIso ++
  lit "\",\n    \"total_assessments\": " ++ natChars assessments.length ++
  lit ",\n    \"data_quality_score\": 9.2,\n    \"analysis_version\": \"v2.1\"\n  \x7d"

/-- One mitigation-strategy row inside the enhanced JSON export. -/
def serializeStrategy (s : MitigationStrategy) : List Char :=
  lit "\x7b\n      \"id\": " ++ jstr s.id ++
  lit ",\n      \"risk_type\": " ++ jstr s.risk_type ++
  lit ",\n      \"severity\": " ++ jstr s.severity ++
  lit ",\n      \"strategy_title\": " ++ jstr s.strategy_title ++
  lit ",\n      \"strategy_description\": " ++ jstr s.strategy_description ++
  lit ",\n      \"implementation_difficulty\": " ++ jstr s.implementation_difficulty ++
  lit ",\n      \"effectiveness_score\": " ++ natChars s.effectiveness_score ++
  lit ",\n      \"created_at\": " ++ intChars s.created_at ++
  lit "\n    \x7d"

/-- The `mitigation_strategies` array value. -/
def serializeStrategies (l : List MitigationStrategy) : List Char :=
  if l.isEmpty then lit "[]"
  else lit "[\n    " ++
    intercalateChars (lit ",\n    ") (l.map serializeStrategy) ++ lit "\n  ]"

/-- `strategies.reduce((sum, s) => sum + s.effectiveness_score, 0)`. -/
def sumEffectiveness (l : List MitigationStrategy) : Nat :=
  (l.map (fun s => s.effectiveness_score)).sum

/-- `average_effectiveness` of the strategy summary; the JS division of the
sum by `strategies.length` yields NaN on an empty list, modelled as the
rational 0 (never serialized by any theorem here). -/
def averageEffectiveness (l : List MitigationStrategy) : ℚ :=
  (sumEffectiveness l : ℚ) / (l.length : ℚ)

/-- `sectors_covered`: `[...new Set(strategies.map(s => s.risk_type))].length`. -/
def sectorsCovered (l : List MitigationStrategy) : Nat :=
  (firstOccurrences (l.map (fun s => s.risk_type))).length

/-- The `mitigation_strategies` + `strategy_summary` block of the enhanced
export object (dataType `all` or `strategies`). -/
def strategiesSectionChars (strategies : List MitigationStrategy) : List Char :=
  lit "  \"mitigation_strategies\": " ++ serializeStrategies strategies ++
  lit ",\n  \"strategy_summary\": \x7b\n    \"total_strategies\": " ++
  natChars strategies.length ++
  lit ",\n    \"average_effectiveness\": " ++ ratChars (averageEffectiveness strategies) ++
  lit ",\n    \"sectors_covered\": " ++ natChars (sectorsCovered strategies) ++
  lit "\n  \x7d"

/-- One risk-factor row inside the enhanced JSON export. -/
def serializeFactor (f : RiskFactor) : List Char :=
  lit "\x7b\n      \"id\": " ++ jstr f.id ++
  lit ",\n      \"risk_type\": " ++ jstr f.risk_type ++
  lit ",\n      \"factor_name\": " ++ jstr f.factor_name ++
  lit ",\n      \"impact_level\": " ++ jstr f.impact_level ++
  lit ",\n      \"frequency_percentage\": " ++ ratChars f.frequency_percentage ++
  lit ",\n      \"description\": " ++ jstr f.description ++
  lit ",\n      \"created_at\": " ++ intChars f.created_at ++
  lit "\n    \x7d"

/-- The `risk_factors` array value. -/
def serializeFactors (l : List RiskFactor) : List Char :=
  if l.isEmpty then lit "[]"
  else lit "[\n    " ++
    intercalateChars (lit ",\n    ") (l.map serializeFactor) ++ lit "\n  ]"

/-- `high_impact_factors`: `riskFactors.filter(f => f.impact_level === 'Critical').length`. -/
def highImpactFactors (l : List RiskFactor) : Nat :=
  (l.filter (fun f => f.impact_level = "Critical")).length

/-- `average_frequency` of the factor analysis (same NaN caveat as
`averageEffectiveness`). -/
def averageFrequency (l : List RiskFactor) : ℚ :=
  ((l.map (fun f => f.frequency_percentage)).sum) / (l.length : ℚ)

/-- The `risk_factors` + `factor_analysis` block of the enhanced export
object (dataType `all` or `factors`). -/
def factorsSectionChars (riskFactors : List RiskFactor) : List Char :=
  lit "  \"risk_factors\": " ++ serializeFactors riskFactors ++
  lit ",\n  \"factor_analysis\": \x7b\n    \"total_factors\": " ++
  natChars riskFactors.length ++
  lit ",\n    \"high_impact_factors\": " ++ natChars (highImpactFactors riskFactors) ++
  lit ",\n    \"average_frequency\": " ++ ratChars (averageFrequency riskFactors) ++
  lit "\n  \x7d"

/-- First `if` of the enhanced `exportData` object assembly:
`dataType === 'all' || dataType === 'assessments'`. -/
def includeAssessments (dataType : String) : Bool :=
  dataType == "all" || dataType == "assessments"

/-- Second `if`: `dataType === 'all' || dataType === 'strategies'`. -/
def includeStrategies (dataType : String) : Bool :=
  dataType == "all" || dataType == "strategies"

/-- Third `if`: `dataType === 'all' || dataType === 'factors'`. -/
def includeFactors (dataType : String) : Bool :=
  dataType == "all" || dataType == "factors"

/-- The top-level key blocks of the enhanced export object, in the order the
three `if` blocks spread them in. -/
def jsonSections (nowIso : List Char) (assessments : List AssessmentRow)
    (strategies : List MitigationStrategy) (riskFactors : List RiskFactor)
    (dataType : String) : List (List Char) :=
  (if includeAssessments dataType then [assessmentsSectionChars nowIso assessments] else []) ++
  (if includeStrategies dataType then [strategiesSectionChars strategies] else []) ++
  (if includeFactors dataType then [factorsSectionChars riskFactors] else [])

/-- `JSON.stringify(exportData, null, 2)` for the assembled export object. -/
def stringifyExport (nowIso : List Char) (assessments : List AssessmentRow)
    (strategies : List MitigationStrategy) (riskFactors : List RiskFactor)
    (dataType : String) : List Char :=
  match jsonSections nowIso assessments strategies riskFactors dataType with
  | [] => lit "\x7b\x7d"
  | secs => lit "\x7b\n" ++ intercalateChars (lit ",\n") secs ++ lit "\n\x7d"

/-- One CSV row of `convertToCSV`:
`Object.values(item).map(val => `"${val}"`).join(',')` (every value quoted,
booleans and timestamps rendered by interpolation). -/
def csvRowQuoted (r : AssessmentRow) : List Char :=
  jstr r.id ++ lit "," ++ jstr r.ai_tool ++ lit "," ++ jstr r.risk_type ++
  lit "," ++ jstr r.severity ++ lit "," ++ jstr r.description ++
  lit "," ++ jstr r.email ++
  lit ",\"" ++ boolChars r.report_requested ++ lit "\"" ++
  lit ",\"" ++ intChars r.created_at ++ lit "\"" ++
  lit ",\"" ++ intChars r.updated_at ++ lit "\""

/-- Header row of `convertToCSV`: `Object.keys` of the first record (the
column order of the `risk_assessments` table), empty when there is no first
record (`data.risk_assessments[0] || {}`). -/
def csvHeaders (l : List AssessmentRow) : List Char :=
  if l.isEmpty then []
  else lit "id,ai_tool,risk_type,severity,description,email,report_requested,created_at,updated_at"

/-- `convertToCSV` of the enhanced exporter: when the export object carries a
`risk_assessments` key (even an empty array is truthy) the result is
`${headers}\n${rows}`; otherwise the empty string. Only the assessments are
ever rendered to CSV. -/
def convertToCSV (assessments : List AssessmentRow) (dataType : String) : List Char :=
  if includeAssessments dataType then
    csvHeaders assessments ++ lit "\n" ++
    intercalateChars (lit "\n") (assessments.map csvRowQuoted)
  else []

/-- `dataStr` of the enhanced `exportData`: JSON stringification for
`'json'`, `convertToCSV` for `'csv'`, JSON again otherwise. -/
def enhancedDataStr (nowIso : List Char) (assessments : List AssessmentRow)
    (strategies : List MitigationStrategy) (riskFactors : List RiskFactor)
    (format dataType : String) : List Char :=
  if format = "json" then stringifyExport nowIso assessments strategies riskFactors dataType
  else if format = "csv" then convertToCSV assessments dataType
  else stringifyExport nowIso assessments strategies riskFactors dataType

/-- `exportData` of the enhanced reports section. `nowIso` is the
`new Date().toISOString()` reading and `nowDate` its date part
(`.split('T')[0]`), both taken from the wall clock during the call. The
guard reports "No Data" only when all three loaded collections are empty;
otherwise the payload is downloaded under
`ai-risk-comprehensive-<dataType>-<date>.<format>`. -/
def exportDataEnhanced (nowIso : List Char) (nowDate : String)
    (assessments : List AssessmentRow) (strategies : List MitigationStrategy)
    (riskFactors : List RiskFactor) (format dataType : String) : ExportOutcome :=
  if assessments.length = 0 ∧ strategies.length = 0 ∧ riskFactors.length = 0 then
    .noData
  else
    .file (enhancedDataStr nowIso assessments strategies riskFactors format dataType)
      ("ai-risk-comprehensive-" ++ dataType ++ "-" ++ nowDate ++ "." ++ format)
      (mimeOf format)

/-- Strip an exact literal prefix from the input (used by the payload
re-parser to consume the fixed JSON punctuation the serializer emits). -/
def parseLit (pat cs : List Char) : Option (List Char) :=
  match pat, cs with
  | [], rest => some rest
  | p :: ps, c :: rest => if c = p then parseLit ps rest else none
  | _ :: _, [] => none

/-- Read characters up to the next quote (the closing quote of a JSON string
without escapes), returning the body and the rest of the input. -/
def parseStrBody (cs : List Char) : Option (List Char × List Char) :=
  match cs with
  | [] => none
  | c :: rest =>
    if c = '"' then some ([], rest)
    else (parseStrBody rest).map (fun p => (c :: p.1, p.2))

/-- Read a quoted JSON string. -/
def parseQuoted (cs : List Char) : Option (String × List Char) :=
  match cs with
  | '"' :: rest => (parseStrBody rest).map (fun p => (String.mk p.1, p.2))
  | _ => none

/-- Re-parse one serialized legacy record (the exact layout
`serializeAssessment` emits). -/
def parseAssessmentRecord (cs : List Char) : Option (Assessment × List Char) :=
  (parseLit (lit "\x7b\n    \"timestamp\": ") cs).bind fun cs1 =>
  (parseQuoted cs1).bind fun p1 =>
  (parseLit (lit ",\n    \"aiTool\": ") p1.2).bind fun cs2 =>
  (parseQuoted cs2).bind fun p2 =>
  (parseLit (lit ",\n    \"riskType\": ") p2.2).bind fun cs3 =>
  (parseQuoted cs3).bind fun p3 =>
  (parseLit (lit ",\n    \"severity\": ") p3.2).bind fun cs4 =>
  (parseQuoted cs4).bind fun p4 =>
  (parseLit (lit ",\n    \"description\": ") p4.2).bind fun cs5 =>
  (parseQuoted cs5).bind fun p5 =>
  (parseLit (lit "\n  \x7d") p5.2).map fun cs6 =>
  (⟨p1.1, p2.1, p3.1, p4.1, p5.1⟩, cs6)

/-- Re-parse the comma-separated items of the serialized array; `fuel`
bounds the number of records (instantiated with the input length, which
always suffices). -/
def parseItems (fuel : Nat) (cs : List Char) : Option (List Assessment) :=
  match fuel with
  | 0 => none
  | f + 1 =>
    (parseAssessmentRecord cs).bind fun p =>
      match parseLit (lit ",\n  ") p.2 with
      | some rest => (parseItems f rest).map (fun tl => p.1 :: tl)
      | none =>
        match parseLit (lit "\n]") p.2 with
        | some [] => some [p.1]
        | _ => none

/-- Model of the external `JSON.parse` restricted to the payload shape the
legacy JSON export emits, extracting the contained record list. -/
def parseAssessments (cs : List Char) : Option (List Assessment) :=
  if cs = lit "[]" then some []
  else (parseLit (lit "[\n  ") cs).bind (parseItems cs.length)

/-- A character that `JSON.stringify` serializes verbatim inside a string
literal: not a quote, not a backslash, not a control character. On strings
of such characters the escaping-free model serializer agrees with the
external serializer. -/
def plainChar (c : Char) : Prop := c ≠ '"' ∧ c ≠ '\\' ∧ 32 ≤ c.toNat

instance : DecidablePred plainChar := fun c => by
  unfold plainChar
  infer_instance

/-- A string of plain characters. -/
def plainString (s : String) : Prop := ∀ c ∈ s.data, plainChar c

instance : DecidablePred plainString := fun s => by
  unfold plainString
  infer_instance

/-- A legacy record all of whose fields are plain strings. -/
def plainAssessment (r : Assessment) : Prop :=
  plainString r.timestamp ∧ plainString r.aiTool ∧ plainString r.riskType ∧
  plainString r.severity ∧ plainString r.description

instance : DecidablePred plainAssessment := fun r => by
  unfold plainAssessment
  infer_instance

/-- Bumping a bucket adds exactly one to the total count. -/
theorem sumCounts_bump (k : String) (m : List (String × Nat)) :
    sumCounts (bump k m) = sumCounts m + 1 := by
  induction m with
  | nil => simp [bump, sumCounts]
  | cons e rest ih =>
    obtain ⟨k', n⟩ := e
    by_cases h : k' = k <;> simp [bump, h, sumCounts] at ih ⊢ <;> omega

/-- Bumping bucket `k` adds one to the count read at `k` and nothing else. -/
theorem lookupCount_bump (k k' : String) (m : List (String × Nat)) :
    lookupCount k' (bump k m) = lookupCount k' m + if k = k' then 1 else 0 := by
  induction m with
  | nil => by_cases h : k = k' <;> simp [bump, lookupCount, h]
  | cons e rest ih =>
    obtain ⟨k'', n⟩ := e
    by_cases h1 : k'' = k
    · subst h1
      by_cases h2 : k'' = k' <;> simp [bump, lookupCount, h2]
    · by_cases h2 : k'' = k'
      · subst h2
        have hkk : k ≠ k'' := fun hh => h1 hh.symm
        simp [bump, lookupCount, h1, hkk]
      · simp [bump, lookupCount, h1, h2, ih]

/-- Key list after a bump: untouched if the key exists, appended otherwise. -/
theorem keysOf_bump (k : String) (m : List (String × Nat)) :
    keysOf (bump k m) =
      if k ∈ keysOf m then keysOf m else keysOf m ++ [k] := by
  induction m with
  | nil => simp [bump, keysOf]
  | cons e rest ih =>
    obtain ⟨k', n⟩ := e
    simp only [keysOf] at ih ⊢
    by_cases h : k' = k
    · subst h
      simp [bump]
    · have hne : k ≠ k' := fun hh => h hh.symm
      by_cases h2 : k ∈ List.map (fun e => e.1) rest
      · simp [bump, h, h2, hne, ih]
      · simp [bump, h, h2, hne, ih]

/-- Bumping preserves distinctness of the bucket keys. -/
theorem nodup_keysOf_bump (k : String) (m : List (String × Nat))
    (h : (keysOf m).Nodup) : (keysOf (bump k m)).Nodup := by
  rw [keysOf_bump]
  by_cases hk : k ∈ keysOf m
  · simp [hk, h]
  · simp only [hk, if_false]
    refine h.append (List.nodup_singleton k) ?_
    simp [List.disjoint_singleton, hk]

/-- Total-count invariant of the counting fold. -/
theorem sumCounts_foldl (key : α → String) (l : List α) (acc : List (String × Nat)) :
    sumCounts (l.foldl (fun m r => bump (key r) m) acc) = sumCounts acc + l.length := by
  induction l generalizing acc with
  | nil => simp
  | cons r rest ih => simp [List.foldl_cons, ih, sumCounts_bump]; omega

/-- Per-bucket invariant of the counting fold. -/
theorem lookupCount_foldl (key : α → String) (k : String) (l : List α)
    (acc : List (String × Nat)) :
    lookupCount k (l.foldl (fun m r => bump (key r) m) acc) =
      lookupCount k acc + l.countP (fun r => key r = k) := by
  induction l generalizing acc with
  | nil => simp
  | cons r rest ih =>
    simp only [List.foldl_cons, ih, lookupCount_bump, List.countP_cons]
    by_cases h : key r = k
    · simp [h]
      omega
    · simp [h]

/-- Key-distinctness invariant of the counting fold. -/
theorem nodup_keysOf_foldl (key : α → String) (l : List α)
    (acc : List (String × Nat)) (h : (keysOf acc).Nodup) :
    (keysOf (l.foldl (fun m r => bump (key r) m) acc)).Nodup := by
  induction l generalizing acc with
  | nil => exact h
  | cons r rest ih => exact ih _ (nodup_keysOf_bump _ _ h)

/-- The total of the grouped counts is the number of records. -/
theorem sumCounts_countBy (key : α → String) (l : List α) :
    sumCounts (countBy key l) = l.length := by
  simpa [countBy, sumCounts] using sumCounts_foldl key l []

/-- Each bucket of `countBy` holds exactly the records carrying its key. -/
theorem lookupCount_countBy (key : α → String) (k : String) (l : List α) :
    lookupCount k (countBy key l) = l.countP (fun r => key r = k) := by
  simpa [countBy, lookupCount] using lookupCount_foldl key k l []

/-- The buckets of `countBy` have pairwise-distinct keys. -/
theorem nodup_keysOf_countBy (key : α → String) (l : List α) :
    (keysOf (countBy key l)).Nodup := by
  exact nodup_keysOf_foldl key l [] (by simp [keysOf])

/-- A bucket count never exceeds the number of records. -/
theorem lookupCount_countBy_le (key : α → String) (k : String) (l : List α) :
    lookupCount k (countBy key l) ≤ l.length := by
  rw [lookupCount_countBy]
  exact l.countP_le_length _

/-- Claim C5: the severity aggregation is total over any record list and
partitions it: the bucket counts sum to the list length, the buckets carry
pairwise-distinct severity labels (an empty-string severity is a bucket key
like any other, so nothing raises), and each bucket's count is exactly the
number of records carrying that severity, so every record is counted in
exactly one bucket. -/
theorem severity_aggregation_partitions (l : List Assessment) :
    sumCounts (severityData l) = l.length ∧
    (keysOf (severityData l)).Nodup ∧
    ∀ s : String, lookupCount s (severityData l) = l.countP (fun a => a.severity = s) := by
  refine ⟨sumCounts_countBy _ l, nodup_keysOf_countBy _ l, fun s => ?_⟩
  exact lookupCount_countBy _ s l

/-- Claim C1 counterexample: a record whose `created_at` lies exactly at
`now` minus 7 days is NOT counted by the code (strict `>` excludes the lower
bound), while the claimed window (inclusive lower bound) counts it. -/
theorem weeklyCount_boundary_counterexample :
    weeklyCount 1700000000000
      [⟨"id1", "ChatGPT/OpenAI", "Misinformation", "High", "", "", true,
        1699395200000, 1699395200000⟩] = 0 ∧
    weeklyCountSpec 1700000000000
      [⟨"id1", "ChatGPT/OpenAI", "Misinformation", "High", "", "", true,
        1699395200000, 1699395200000⟩] = 1 := by
  constructor <;> decide

/-- Claim C1 (amended): `weeklyCount` counts exactly the records with
`created_at` STRICTLY greater than now minus 7 days, with no upper bound
(future timestamps are included); consequently `weeklyCount` never exceeds
the total, with equality when every `created_at` is strictly inside that
half-open window. -/
theorem weeklyCount_amended (now : Int) (l : List AssessmentRow) :
    weeklyCount now l = l.countP (fun r => now - msPerWeek < r.created_at) ∧
    weeklyCount now l ≤ l.length ∧
    ((∀ r ∈ l, now - msPerWeek < r.created_at) → weeklyCount now l = l.length) := by
  refine ⟨?_, ?_, ?_⟩
  · simp [weeklyCount, weeklySubmissions, List.countP_eq_length_filter]
  · exact List.length_filter_le _ _
  · intro h
    unfold weeklyCount weeklySubmissions
    rw [List.filter_eq_self.mpr (fun r hr => by simpa using h r hr)]

/-- Claim C1 (amended) witness: the amended theorem applied to a singleton
list whose record is one millisecond inside the strict window. -/
theorem weeklyCount_amended_witness :
    weeklyCount 1700000000000
      [⟨"id1", "ChatGPT/OpenAI", "Misinformation", "High", "", "", true,
        1699395200001, 1699395200001⟩] = 1 :=
  (weeklyCount_amended 1700000000000
    [⟨"id1", "ChatGPT/OpenAI", "Misinformation", "High", "", "", true,
      1699395200001, 1699395200001⟩]).2.2 (by decide)

/-- Claim C2 counterexample: on the empty list `getInsights` returns `none`
(the source returns `null` before computing anything), so no
`criticalPercentage` of `0` is produced, contrary to the claim. -/
theorem criticalPercentage_empty_counterexample :
    Option.map (fun i => i.criticalPercentage)
      (getInsights ([] : List Assessment)) ≠ some 0 := by
  decide

/-- Claim C2 (amended): on the empty list the whole insight computation
returns `null` (so the division is guarded by never happening); on a
non-empty list `criticalPercentage` equals
`100 * countBySeverity['Critical'] / total` and lies in `[0, 100]`. -/
theorem criticalPercentage_amended (l : List Assessment) :
    (l = [] → getInsights l = none) ∧
    (l ≠ [] →
      Option.map (fun i => i.criticalPercentage) (getInsights l)
        = some (100 * (lookupCount "Critical" (severityData l) : ℚ) / (l.length : ℚ)) ∧
      0 ≤ 100 * (lookupCount "Critical" (severityData l) : ℚ) / (l.length : ℚ) ∧
      100 * (lookupCount "Critical" (severityData l) : ℚ) / (l.length : ℚ) ≤ 100) := by
  constructor
  · intro h
    subst h
    rfl
  · intro h
    have hlen : l.length ≠ 0 := by simpa using h
    have hpos : (0 : ℚ) < (l.length : ℚ) := by
      exact_mod_cast Nat.pos_of_ne_zero hlen
    have hle : (lookupCount "Critical" (severityData l) : ℚ) ≤ (l.length : ℚ) := by
      exact_mod_cast lookupCount_countBy_le (fun a => a.severity) "Critical" l
    refine ⟨?_, ?_, ?_⟩
    · simp only [getInsights, hlen, if_false, Option.map_some']
      congr 1
      ring
    · positivity
    · rw [div_le_iff₀ hpos]
      nlinarith [hle]

/-- Claim C2 (amended) witness: the amended theorem applied to a concrete
singleton list with a Critical record; its critical percentage is 100. -/
theorem criticalPercentage_amended_witness :
    Option.map (fun i => i.criticalPercentage)
        (getInsights [⟨"t0", "ChatGPT/OpenAI", "Bias/Discrimination", "Critical", ""⟩])
      = some (100 * (lookupCount "Critical"
          (severityData [⟨"t0", "ChatGPT/OpenAI", "Bias/Discrimination", "Critical", ""⟩]) : ℚ) /
        ((([⟨"t0", "ChatGPT/OpenAI", "Bias/Discrimination", "Critical", ""⟩] : List Assessment).length : Nat) : ℚ)) :=
  ((criticalPercentage_amended
    [⟨"t0", "ChatGPT/OpenAI", "Bias/Discrimination", "Critical", ""⟩]).2 (by decide)).1

/-- Claim C4: exporting an empty dataset yields the "No Data" notification
and no file: the legacy exporter checks its assessment list, the enhanced
exporter checks all three loaded collections, and both return before the
download path. -/
theorem export_empty_reports_no_data (format dataType : String)
    (nowIso : List Char) (nowDate : String) :
    exportDataSimple [] format = ExportOutcome.noData ∧
    exportDataEnhanced nowIso nowDate [] [] [] format dataType = ExportOutcome.noData := by
  constructor <;> rfl

/-- Claim C9: a form submission attempt in which `aiTool`, `riskType`, or
`severity` is the empty string never reaches the store: the submit button's
disabled predicate is true for each of the three missing-required-field
cases, so no insert row is ever built. -/
theorem empty_tool_submission_rejected (f : FormData) (b : Bool)
    (h : f.aiTool = "" ∨ f.riskType = "" ∨ f.severity = "") :
    attemptSubmit f b = none := by
  rcases h with h | h | h <;> simp [attemptSubmit, submitDisabled, h]

/-- Claim C9 witness: concrete form states with, in turn, an empty `aiTool`,
an empty `riskType`, and an empty `severity` (the other required fields
filled) are all rejected before any store call. -/
theorem empty_tool_submission_rejected_witness :
    attemptSubmit ⟨"", "Bias/Discrimination", "High", "d", "e@x.org", false⟩ false = none ∧
    attemptSubmit ⟨"ChatGPT/OpenAI", "", "High", "d", "e@x.org", false⟩ false = none ∧
    attemptSubmit ⟨"ChatGPT/OpenAI", "Bias/Discrimination", "", "d", "e@x.org", false⟩ false = none :=
  ⟨empty_tool_submission_rejected
      ⟨"", "Bias/Discrimination", "High", "d", "e@x.org", false⟩ false (Or.inl rfl),
    empty_tool_submission_rejected
      ⟨"ChatGPT/OpenAI", "", "High", "d", "e@x.org", false⟩ false (Or.inr (Or.inl rfl)),
    empty_tool_submission_rejected
      ⟨"ChatGPT/OpenAI", "Bias/Discrimination", "", "d", "e@x.org", false⟩ false
      (Or.inr (Or.inr rfl))⟩

/-- Inserting an entry permutes consing it in front. -/
theorem insertDesc_perm (x : String × Nat) (l : List (String × Nat)) :
    List.Perm (insertDesc x l) (x :: l) := by
  induction l with
  | nil => exact List.Perm.refl _
  | cons y ys ih =>
    by_cases h : x.2 < y.2
    · simp only [insertDesc, if_pos h]
      exact (ih.cons y).trans (List.Perm.swap x y ys)
    · simp only [insertDesc, if_neg h]
      exact List.Perm.refl _

/-- The stable descending sort permutes its input. -/
theorem sortDesc_perm (l : List (String × Nat)) : List.Perm (sortDesc l) l := by
  induction l with
  | nil => exact List.Perm.refl _
  | cons x xs ih => exact (insertDesc_perm x (sortDesc xs)).trans (ih.cons x)

/-- Insertion preserves the descending-count ordering. -/
theorem pairwise_insertDesc (x : String × Nat) (l : List (String × Nat))
    (h : l.Pairwise (fun p q => q.2 ≤ p.2)) :
    (insertDesc x l).Pairwise (fun p q => q.2 ≤ p.2) := by
  induction l with
  | nil => simp [insertDesc]
  | cons y ys ih =>
    rcases List.pairwise_cons.mp h with ⟨hy, hys⟩
    by_cases hlt : x.2 < y.2
    · simp only [insertDesc, if_pos hlt]
      refine List.pairwise_cons.mpr ⟨?_, ih hys⟩
      intro z hz
      rcases List.mem_cons.mp ((insertDesc_perm x ys).mem_iff.mp hz) with h1 | h2
      · subst h1
        exact le_of_lt hlt
      · exact hy z h2
    · simp only [insertDesc, if_neg hlt]
      push_neg at hlt
      refine List.pairwise_cons.mpr ⟨?_, h⟩
      intro z hz
      rcases List.mem_cons.mp hz with h1 | h2
      · subst h1
        exact hlt
      · exact le_trans (hy z h2) hlt

/-- The sorted list is ordered by descending count. -/
theorem pairwise_sortDesc (l : List (String × Nat)) :
    (sortDesc l).Pairwise (fun p q => q.2 ≤ p.2) := by
  induction l with
  | nil => simp [sortDesc]
  | cons x xs ih => exact pairwise_insertDesc x _ ih

/-- Inserting an entry of a different count leaves a count-class untouched. -/
theorem filter_insertDesc_ne (c : Nat) (x : String × Nat) (l : List (String × Nat))
    (h : x.2 ≠ c) :
    (insertDesc x l).filter (fun e => e.2 = c) = l.filter (fun e => e.2 = c) := by
  induction l with
  | nil => simp [insertDesc, h]
  | cons y ys ih =>
    by_cases hlt : x.2 < y.2
    · simp only [insertDesc, if_pos hlt]
      by_cases hy : y.2 = c <;> simp [List.filter_cons, hy, ih]
    · simp only [insertDesc, if_neg hlt]
      simp [List.filter_cons, h]

/-- Inserting an entry of count `c` puts it at the FRONT of the `c`-class:
insertion skips only entries with strictly larger counts. -/
theorem filter_insertDesc_eq (c : Nat) (x : String × Nat) (l : List (String × Nat))
    (h : x.2 = c) :
    (insertDesc x l).filter (fun e => e.2 = c) = x :: l.filter (fun e => e.2 = c) := by
  induction l with
  | nil => simp [insertDesc, h]
  | cons y ys ih =>
    by_cases hlt : x.2 < y.2
    · have hy : y.2 ≠ c := by omega
      simp only [insertDesc, if_pos hlt]
      simp [List.filter_cons, hy, ih]
    · simp only [insertDesc, if_neg hlt]
      simp [List.filter_cons, h]

/-- Stability of the sort: each count-class keeps its input order. -/
theorem filter_sortDesc (c : Nat) (l : List (String × Nat)) :
    (sortDesc l).filter (fun e => e.2 = c) = l.filter (fun e => e.2 = c) := by
  induction l with
  | nil => rfl
  | cons x xs ih =>
    by_cases h : x.2 = c
    · simp only [sortDesc]
      rw [filter_insertDesc_eq c x _ h, ih]
      simp [List.filter_cons, h]
    · simp only [sortDesc]
      rw [filter_insertDesc_ne c x _ h, ih]
      simp [List.filter_cons, h]

/-- Key-order invariant of the counting fold against the first-occurrence
fold. -/
theorem keysOf_foldl (key : α → String) (l : List α) (acc : List (String × Nat)) :
    keysOf (l.foldl (fun m r => bump (key r) m) acc) =
      (l.map key).foldl (fun a k => if k ∈ a then a else a ++ [k]) (keysOf acc) := by
  induction l generalizing acc with
  | nil => simp
  | cons r rest ih => simp [List.foldl_cons, ih, keysOf_bump]

/-- The grouped entries list keys in first-encounter order of the input. -/
theorem keysOf_countBy (key : α → String) (l : List α) :
    keysOf (countBy key l) = firstOccurrences (l.map key) := by
  simpa [countBy, firstOccurrences, keysOf] using keysOf_foldl key l []

/-- In a split of a descending list, everything dropped is bounded by
everything taken. -/
theorem drop_le_take_of_pairwise (n : Nat) (s : List (String × Nat))
    (hp : s.Pairwise (fun p q => q.2 ≤ p.2)) :
    ∀ y ∈ s.drop n, ∀ x ∈ s.take n, y.2 ≤ x.2 := by
  have key : ∀ (t d : List (String × Nat)), (t ++ d).Pairwise (fun p q => q.2 ≤ p.2) →
      ∀ y ∈ d, ∀ x ∈ t, y.2 ≤ x.2 := by
    intro t d hpw y hy x hx
    exact (List.pairwise_append.mp hpw).2.2 x hx y hy
  intro y hy x hx
  refine key (s.take n) (s.drop n) ?_ y hy x hx
  rw [List.take_append_drop]
  exact hp

/-- Claim C6: the top-N tool selection (take `n` of the descending-sorted
grouped counts; `n` is 8 in `Dashboard.tsx` and 10 in
`BlackThemeDashboard.tsx`) keeps exactly the grouped entries (permutation),
in descending count order, every dropped entry has a count no larger than
any kept one (no overflow bucket), equal counts keep their relative order
(stable sort), and the grouped entries themselves are in first-encounter
order of the input sequence; `toolChartData` is the 8-entry instance with
display truncation. -/
theorem top_tools_selection (l : List Assessment) (n : Nat) :
    List.Perm (sortDesc (toolData l)) (toolData l) ∧
    (sortDesc (toolData l)).Pairwise (fun p q => q.2 ≤ p.2) ∧
    (((sortDesc (toolData l)).drop n).all fun y =>
      ((sortDesc (toolData l)).take n).all fun x => decide (y.2 ≤ x.2)) = true ∧
    (∀ c : Nat, (sortDesc (toolData l)).filter (fun e => e.2 = c)
        = (toolData l).filter (fun e => e.2 = c)) ∧
    keysOf (toolData l) = firstOccurrences (l.map (fun a => a.aiTool)) ∧
    toolChartData l
      = ((sortDesc (toolData l)).take 8).map (fun e => (truncateName 15 e.1, e.2)) := by
  refine ⟨sortDesc_perm _, pairwise_sortDesc _, ?_, fun c => filter_sortDesc c _,
    keysOf_countBy _ l, rfl⟩
  simp only [List.all_eq_true, decide_eq_true_eq]
  intro y hy x hx
  exact drop_le_take_of_pairwise n _ (pairwise_sortDesc _) y hy x hx

/-- Decomposition of the enhanced JSON assessments payload: the call-time
ISO string (the `export_date` metadata value) sits between a prefix and a
suffix that depend only on the record snapshot. -/
theorem enhancedDataStr_json_assessments (nowIso : List Char) (a : List AssessmentRow)
    (s : List MitigationStrategy) (f : List RiskFactor) :
    enhancedDataStr nowIso a s f "json" "assessments" =
      (lit "\x7b\n" ++ lit "  \"risk_assessments\": " ++ serializeRows a ++
        lit ",\n  \"metadata\": \x7b\n    \"exported_by\": \"AI Risk Assessment Dashboard\",\n    \"export_date\": \"") ++
      (nowIso ++
        (lit "\",\n    \"total_assessments\": " ++ natChars a.length ++
          lit ",\n    \"data_quality_score\": 9.2,\n    \"analysis_version\": \"v2.1\"\n  \x7d" ++
          lit "\n\x7d")) := by
  have h1 : enhancedDataStr nowIso a s f "json" "assessments"
      = lit "\x7b\n" ++ assessmentsSectionChars nowIso a ++ lit "\n\x7d" := rfl
  rw [h1]
  simp only [assessmentsSectionChars, List.append_assoc]

set_option maxRecDepth 100000 in
/-- Claim C3 counterexample: two export calls with the SAME loaded records
and the SAME format/dataType, made at different wall-clock instants, produce
different payload bytes (the metadata embeds `export_date`). -/
theorem export_determinism_counterexample :
    enhancedDataStr (lit "2025-01-01T00:00:00.000Z")
        [⟨"id1", "ChatGPT/OpenAI", "Misinformation", "High", "d", "e", true, 5, 6⟩]
        [] [] "json" "assessments" ≠
      enhancedDataStr (lit "2025-01-02T00:00:00.000Z")
        [⟨"id1", "ChatGPT/OpenAI", "Misinformation", "High", "d", "e", true, 5, 6⟩]
        [] [] "json" "assessments" := by
  decide

/-- Claim C3 (amended): the enhanced exporter's payload is a pure function of
the record snapshot, the format/dataType, AND the wall-clock ISO string read
during the call; for a JSON assessments export with a fixed snapshot, two
payloads coincide exactly when the two (equal-length) call-time ISO strings
coincide, since `export_date` is embedded in the bytes. -/
theorem export_determinism_amended (a : List AssessmentRow)
    (s : List MitigationStrategy) (f : List RiskFactor) (t1 t2 : List Char)
    (h : t1.length = t2.length) :
    enhancedDataStr t1 a s f "json" "assessments"
        = enhancedDataStr t2 a s f "json" "assessments" ↔ t1 = t2 := by
  constructor
  · intro he
    rw [enhancedDataStr_json_assessments, enhancedDataStr_json_assessments] at he
    exact (List.append_inj (List.append_inj he rfl).2 h).1
  · intro he
    rw [he]

/-- Claim C3 (amended) witness: the amended theorem, applied at two concrete
same-length ISO strings and the empty snapshot, yields concretely different
payloads. -/
theorem export_determinism_amended_witness :
    enhancedDataStr (lit "2025-03-01T00:00:00.000Z") [] [] [] "json" "assessments" ≠
      enhancedDataStr (lit "2025-03-02T00:00:00.000Z") [] [] [] "json" "assessments" :=
  fun h => absurd
    ((export_determinism_amended [] [] []
        (lit "2025-03-01T00:00:00.000Z") (lit "2025-03-02T00:00:00.000Z")
        (by decide)).mp h)
    (by decide)

/-- Claim C7 counterexample: a concrete successful enhanced export downloads
under `ai-risk-comprehensive-all-2025-06-27.json`, which does not match the
claimed pattern `ai-risk-<dataType>-<YYYY-MM-DD>.<ext>` (the code inserts a
fixed `comprehensive-` segment the claim omits). -/
theorem export_filename_counterexample :
    exportDataEnhanced (lit "2025-06-27T12:00:00.000Z") "2025-06-27"
        [⟨"id1", "ChatGPT/OpenAI", "Misinformation", "High", "d", "e", true, 5, 6⟩]
        [] [] "json" "all"
      = ExportOutcome.file
          (enhancedDataStr (lit "2025-06-27T12:00:00.000Z")
            [⟨"id1", "ChatGPT/OpenAI", "Misinformation", "High", "d", "e", true, 5, 6⟩]
            [] [] "json" "all")
          "ai-risk-comprehensive-all-2025-06-27.json" "application/json" ∧
    "ai-risk-comprehensive-all-2025-06-27.json"
      ≠ "ai-risk-" ++ "all" ++ "-" ++ "2025-06-27" ++ "." ++ "json" := by
  constructor
  · rfl
  · decide

/-- Claim C7 (amended): a successful enhanced export downloads as
`ai-risk-comprehensive-<dataType>-<YYYY-MM-DD>.<ext>` (with the export date),
while the legacy exporter downloads as `ai-risk-assessments.<ext>` with no
date; in both, the MIME type is `application/json` for JSON and `text/csv`
otherwise. -/
theorem export_filename_amended (nowIso : List Char) (nowDate : String)
    (a : List AssessmentRow) (s : List MitigationStrategy) (f : List RiskFactor)
    (format dataType : String) (l : List Assessment)
    (h : ¬(a.length = 0 ∧ s.length = 0 ∧ f.length = 0)) (h2 : l ≠ []) :
    exportDataEnhanced nowIso nowDate a s f format dataType
      = ExportOutcome.file (enhancedDataStr nowIso a s f format dataType)
          ("ai-risk-comprehensive-" ++ dataType ++ "-" ++ nowDate ++ "." ++ format)
          (if format = "json" then "application/json" else "text/csv") ∧
    exportDataSimple l format
      = ExportOutcome.file (dataStrSimple l format)
          ("ai-risk-assessments." ++ format)
          (if format = "json" then "application/json" else "text/csv") := by
  constructor
  · rw [exportDataEnhanced.eq_def, if_neg h]
    rfl
  · have hl : ¬(l.length = 0) := by simpa using h2
    rw [exportDataSimple.eq_def, if_neg hl]
    rfl

/-- Claim C7 (amended) witness: the amended theorem at a concrete call. -/
theorem export_filename_amended_witness :
    exportDataEnhanced (lit "2025-06-27T12:00:00.000Z") "2025-06-27"
        [⟨"id2", "Google AI/Bard", "Misinformation", "Medium", "d", "e", false, 7, 8⟩]
        [] [] "csv" "assessments"
      = ExportOutcome.file
          (enhancedDataStr (lit "2025-06-27T12:00:00.000Z")
            [⟨"id2", "Google AI/Bard", "Misinformation", "Medium", "d", "e", false, 7, 8⟩]
            [] [] "csv" "assessments")
          "ai-risk-comprehensive-assessments-2025-06-27.csv" "text/csv" ∧
    exportDataSimple [⟨"t1", "Amazon Alexa", "Privacy Concerns", "Low", ""⟩] "csv"
      = ExportOutcome.file
          (dataStrSimple [⟨"t1", "Amazon Alexa", "Privacy Concerns", "Low", ""⟩] "csv")
          "ai-risk-assessments.csv" "text/csv" :=
  export_filename_amended (lit "2025-06-27T12:00:00.000Z") "2025-06-27"
    [⟨"id2", "Google AI/Bard", "Misinformation", "Medium", "d", "e", false, 7, 8⟩]
    [] [] "csv" "assessments"
    [⟨"t1", "Amazon Alexa", "Privacy Concerns", "Low", ""⟩]
    (by decide) (by decide)

/-- Claim C10: a CSV export of a dataType whose assembled object carries no
`risk_assessments` key (`strategies` or `factors`) downloads a file whose
payload is the EMPTY string (`convertToCSV` returns `''`), with the success
path taken rather than a "no data" report. -/
theorem csv_nonassessment_export_empty (nowIso : List Char) (nowDate : String)
    (a : List AssessmentRow) (s : List MitigationStrategy) (f : List RiskFactor)
    (dataType : String) (hd : dataType = "strategies" ∨ dataType = "factors")
    (h : ¬(a.length = 0 ∧ s.length = 0 ∧ f.length = 0)) :
    exportDataEnhanced nowIso nowDate a s f "csv" dataType
      = ExportOutcome.file []
          ("ai-risk-comprehensive-" ++ dataType ++ "-" ++ nowDate ++ "." ++ "csv")
          "text/csv" := by
  rcases hd with h1 | h1
  · subst h1
    rw [exportDataEnhanced.eq_def, if_neg h]
    rfl
  · subst h1
    rw [exportDataEnhanced.eq_def, if_neg h]
    rfl

/-- Claim C10 witness: a concrete `strategies` CSV export with loaded
strategies downloads an empty payload under the success path. -/
theorem csv_nonassessment_export_empty_witness :
    exportDataEnhanced (lit "2025-06-27T12:00:00.000Z") "2025-06-27"
        [] [⟨"i1", "Trust Erosion", "High", "Transparency Reports", "sd", "Medium", 8, 3⟩] []
        "csv" "strategies"
      = ExportOutcome.file [] "ai-risk-comprehensive-strategies-2025-06-27.csv" "text/csv" :=
  csv_nonassessment_export_empty (lit "2025-06-27T12:00:00.000Z") "2025-06-27"
    [] [⟨"i1", "Trust Erosion", "High", "Transparency Reports", "sd", "Medium", 8, 3⟩] []
    "strategies" (Or.inl rfl) (by decide)

/-- Consuming an exact literal prefix succeeds and returns the rest. -/
theorem parseLit_append (p rest : List Char) : parseLit p (p ++ rest) = some rest := by
  induction p with
  | nil => rfl
  | cons c cs ih => simp [parseLit, ih]

/-- Reading a quote-free body terminated by a quote returns exactly it. -/
theorem parseStrBody_append (s rest : List Char) (h : ∀ c ∈ s, c ≠ '"') :
    parseStrBody (s ++ '"' :: rest) = some (s, rest) := by
  induction s with
  | nil => simp [parseStrBody]
  | cons c cs ih =>
    have hc : c ≠ '"' := h c (List.mem_cons_self c cs)
    simp [parseStrBody, hc, ih (fun x hx => h x (List.mem_cons_of_mem c hx))]

/-- Reading a serialized quote-free string literal returns the string. -/
theorem parseQuoted_append {s : String} {rest : List Char}
    (h : ∀ c ∈ s.data, c ≠ '"') :
    parseQuoted (jstr s ++ rest) = some (s, rest) := by
  have e : jstr s ++ rest = '"' :: (s.data ++ '"' :: rest) := by simp [jstr]
  rw [e]
  simp [parseQuoted, parseStrBody_append s.data rest h]

/-- Re-parsing a serialized record with plain fields recovers the record and
leaves the following input untouched. -/
theorem parseAssessmentRecord_append (r : Assessment) (rest : List Char)
    (hr : plainAssessment r) :
    parseAssessmentRecord (serializeAssessment r ++ rest) = some (r, rest) := by
  obtain ⟨h1, h2, h3, h4, h5⟩ := hr
  have hq1 : ∀ c ∈ r.timestamp.data, c ≠ '"' := fun c hc => (h1 c hc).1
  have hq2 : ∀ c ∈ r.aiTool.data, c ≠ '"' := fun c hc => (h2 c hc).1
  have hq3 : ∀ c ∈ r.riskType.data, c ≠ '"' := fun c hc => (h3 c hc).1
  have hq4 : ∀ c ∈ r.severity.data, c ≠ '"' := fun c hc => (h4 c hc).1
  have hq5 : ∀ c ∈ r.description.data, c ≠ '"' := fun c hc => (h5 c hc).1
  have e : serializeAssessment r ++ rest
      = lit "\x7b\n    \"timestamp\": " ++ (jstr r.timestamp ++
        (lit ",\n    \"aiTool\": " ++ (jstr r.aiTool ++
        (lit ",\n    \"riskType\": " ++ (jstr r.riskType ++
        (lit ",\n    \"severity\": " ++ (jstr r.severity ++
        (lit ",\n    \"description\": " ++ (jstr r.description ++
        (lit "\n  \x7d" ++ rest)))))))))) := by
    simp [serializeAssessment, List.append_assoc]
  rw [parseAssessmentRecord.eq_def, e]
  simp only [parseLit_append, Option.some_bind, parseQuoted_append hq1,
    parseQuoted_append hq2, parseQuoted_append hq3, parseQuoted_append hq4,
    parseQuoted_append hq5, Option.map_some']

/-- Re-parsing the serialized items of a non-empty plain record list (with
enough fuel) recovers the list. -/
theorem parseItems_append (l : List Assessment) (fuel : Nat) (hne : l ≠ [])
    (hw : ∀ r ∈ l, plainAssessment r) (hf : l.length ≤ fuel) :
    parseItems fuel
        (intercalateChars (lit ",\n  ") (l.map serializeAssessment) ++ lit "\n]")
      = some l := by
  induction l generalizing fuel with
  | nil => cases hne rfl
  | cons r tl ih =>
    cases fuel with
    | zero => simp at hf
    | succ f =>
      have hA : parseLit (lit ",\n  ") (lit "\n]") = none := by decide
      have hB : parseLit (lit "\n]") (lit "\n]") = some [] := by decide
      cases tl with
      | nil =>
        simp only [List.map_cons, List.map_nil, intercalateChars]
        rw [parseItems]
        rw [parseAssessmentRecord_append r _ (hw r (List.mem_cons_self r []))]
        simp [hA, hB]
      | cons r2 tl2 =>
        have e : intercalateChars (lit ",\n  ")
              ((r :: r2 :: tl2).map serializeAssessment) ++ lit "\n]"
            = serializeAssessment r ++ (lit ",\n  " ++
              (intercalateChars (lit ",\n  ")
                ((r2 :: tl2).map serializeAssessment) ++ lit "\n]")) := by
          simp [intercalateChars, List.append_assoc]
        rw [e, parseItems]
        rw [parseAssessmentRecord_append r _ (hw r (List.mem_cons_self r _))]
        simp only [Option.some_bind, parseLit_append]
        rw [ih f (by simp) (fun x hx => hw x (List.mem_cons_of_mem r hx))
          (by simpa using Nat.le_of_succ_le_succ hf)]
        rfl

/-- Every serialized record is at least one character long. -/
theorem serializeAssessment_length_pos (r : Assessment) :
    1 ≤ (serializeAssessment r).length := by
  have h0 : 1 ≤ (lit "\x7b\n    \"timestamp\": ").length := by decide
  simp only [serializeAssessment, List.length_append]
  omega

/-- The serialized items are at least as long as the record list. -/
theorem intercalate_items_length (l : List Assessment) :
    l.length ≤ (intercalateChars (lit ",\n  ") (l.map serializeAssessment)).length := by
  induction l with
  | nil => simp [intercalateChars]
  | cons r tl ih =>
    cases tl with
    | nil =>
      simpa [intercalateChars] using serializeAssessment_length_pos r
    | cons r2 tl2 =>
      have hr := serializeAssessment_length_pos r
      simp only [List.map_cons, intercalateChars, List.length_append, List.length_cons] at ih ⊢
      omega

/-- Claim C8: exporting a non-empty record list to JSON and re-parsing the
payload reproduces the record list exactly, element for element (fields are
required to be plain strings, on which the escaping-free serializer model
agrees with the external `JSON.stringify`). -/
theorem json_export_roundtrip (l : List Assessment) (hne : l ≠ [])
    (hw : ∀ r ∈ l, plainAssessment r) :
    parseAssessments (dataStrSimple l "json") = some l := by
  have hpay : dataStrSimple l "json"
      = lit "[\n  " ++
        (intercalateChars (lit ",\n  ") (l.map serializeAssessment) ++ lit "\n]") := by
    cases l with
    | nil => cases hne rfl
    | cons r tl =>
      simp [dataStrSimple, serializeAssessments, List.append_assoc]
  have hlen : l.length ≤ (dataStrSimple l "json").length := by
    rw [hpay]
    have := intercalate_items_length l
    simp only [List.length_append]
    omega
  have hne2 : dataStrSimple l "json" ≠ lit "[]" := by
    intro h
    have hlen2 : (dataStrSimple l "json").length = (lit "[]").length := by rw [h]
    rw [hpay] at hlen2
    have c1 : (lit "[\n  ").length = 4 := by decide
    have c2 : (lit "\n]").length = 2 := by decide
    have c3 : (lit "[]").length = 2 := by decide
    simp only [List.length_append, c1, c2, c3] at hlen2
    omega
  rw [parseAssessments.eq_def, if_neg hne2]
  rw [hpay, parseLit_append, Option.some_bind]
  refine parseItems_append l _ hne hw ?_
  have : (lit "[\n  " ++
      (intercalateChars (lit ",\n  ") (l.map serializeAssessment) ++ lit "\n]")).length
      = (dataStrSimple l "json").length := by rw [hpay]
  rw [this]
  exact hlen

set_option maxRecDepth 40000 in
/-- Claim C8 witness: a concrete singleton export round-trips. -/
theorem json_export_roundtrip_witness :
    parseAssessments (dataStrSimple
        [⟨"2025-01-01T00:00:00.000Z", "ChatGPT/OpenAI", "Misinformation", "High", "a desc"⟩]
        "json")
      = some [⟨"2025-01-01T00:00:00.000Z", "ChatGPT/OpenAI", "Misinformation", "High", "a desc"⟩] :=
  json_export_roundtrip
    [⟨"2025-01-01T00:00:00.000Z", "ChatGPT/OpenAI", "Misinformation", "High", "a desc"⟩]
    (by decide) (by decide)
